import Mathlib

/-!
Verification of the langrepeater media-assembly pipeline
(`src/langrepeater_app/repetitor/audio/`): a shallow embedding of the pure
computations of `cache.py`, `generator.py`, `models.py`, `processing.py` and
`text_fixer.py`, with theorems about cloud-batch window assignment, the
master-header invariant, pause calculation, byte/duration conversions, SRT
formatting and text normalization.

Python `float` arithmetic is modelled over `ℚ`, Python `int` over `ℤ`/`ℕ`
(Python integers are unbounded, so no wrap-around modelling is needed),
Python `//`/`%` over `Int.fdiv`/`Int.fmod` (floor semantics), and fatal
control flow — raised exceptions and `exit(1)` calls — as `Except.error`.
-/

namespace Langrepeater

/-- Python's `round` (banker's rounding, round-half-to-even) on a rational. -/
def pyRound (q : ℚ) : ℤ :=
  let f := ⌊q⌋
  let r := q - f
  if r < 1/2 then f
  else if 1/2 < r then f + 1
  else if f % 2 = 0 then f else f + 1

/-- Python's `int(...)` applied to a float: truncation toward zero. -/
def pyTrunc (q : ℚ) : ℤ :=
  if q < 0 then -⌊-q⌋ else ⌊q⌋

/-- `WAVHeader` from `models.py` (sample rate, bit depth, channels).
WAV header fields are nonnegative integers, modelled as `ℕ`. -/
structure WAVHeader where
  sample_rate : ℕ
  bit_depth : ℕ
  channels : ℕ
deriving DecidableEq, Repr

/-- `WAVHeader.get_default()`: 22050 Hz, 16-bit, mono (`models.py`). -/
def WAVHeader.getDefault : WAVHeader :=
  { sample_rate := 22050, bit_depth := 16, channels := 1 }

/-- `PAUSE_BREAK_SEC_INT = 2` from `constants.py`, as seconds. -/
def pauseBreakSecInt : ℚ := 2

/-- `STEP_FROM_SILENCE_MIDDLE_SEC = 0.7` from `constants.py`. -/
def stepFromSilenceMiddleSec : ℚ := 7/10

/-- `PcmPause` from `models.py`: a detected silence interval in seconds. -/
structure PcmPause where
  start_sec : ℚ
  end_sec : ℚ
deriving DecidableEq, Repr

/-- `PcmPause.get_middle`: `start_sec + (end_sec - start_sec) / 2.0`. -/
def PcmPause.getMiddle (p : PcmPause) : ℚ :=
  p.start_sec + (p.end_sec - p.start_sec) / 2

/-- `AudioContent` from `models.py`: a WAV header plus raw PCM bytes
(bytes modelled as a list of byte values). -/
structure AudioContent where
  header : WAVHeader
  pcm_bytes : List ℕ
deriving DecidableEq, Repr

/-- `SegmentType` from `config.py`. -/
inductive SegmentType where
  | GENERATED_CLOUD_BATCH
  | GENERATED_CLOUD
  | FILE_SEGMENT
deriving DecidableEq, Repr

/-- `SubGroupType` from `config.py`. -/
inductive SubGroupType where
  | DESCRIPTION
  | ORIGINAL_PHRASE
  | TRANSLATION
deriving DecidableEq, Repr

/-- The time/key fields of `SegmentVariant` from `models.py` that the
cloud-batch population and the concatenator read and write
(`audio_file_key`, `start_time_sec`, `end_time_sec`; defaults `None`, -1, -1). -/
structure SegmentVariantTimes where
  audio_file_key : Option String := none
  start_time_sec : ℚ := -1
  end_time_sec : ℚ := -1
deriving DecidableEq, Repr

/-- `processing.bytes_for_duration(duration_sec, header)`: rounds
`duration_sec * sample_rate * channels * (bit_depth // 8)` to the nearest
byte (Python `round`), then aligns down to a whole frame of
`channels * (bit_depth // 8)` bytes. Returns 0 for negative durations. -/
def bytesForDuration (durationSec : ℚ) (h : WAVHeader) : ℤ :=
  if durationSec < 0 then 0
  else
    let bytesPerSecond : ℤ := (h.sample_rate : ℤ) * (h.channels : ℤ) * ((h.bit_depth / 8 : ℕ) : ℤ)
    let numBytes : ℤ := pyRound (durationSec * (bytesPerSecond : ℚ))
    let bytesPerFrame : ℤ := (h.channels : ℤ) * ((h.bit_depth / 8 : ℕ) : ℤ)
    if 0 < bytesPerFrame then (Int.fdiv numBytes bytesPerFrame) * bytesPerFrame
    else numBytes

/-- `processing.calculate_duration_ms(num_bytes, header)`:
`int(num_bytes / bytes_per_frame / sample_rate * 1000)` with true division,
returning 0 for degenerate headers. -/
def calculateDurationMs (numBytes : ℤ) (h : WAVHeader) : ℤ :=
  if h.sample_rate = 0 ∨ h.bit_depth = 0 ∨ h.channels = 0 then 0
  else
    let bytesPerFrame : ℤ := ((h.bit_depth / 8 : ℕ) : ℤ) * (h.channels : ℤ)
    if bytesPerFrame = 0 then 0
    else pyTrunc ((numBytes : ℚ) / (bytesPerFrame : ℚ) / (h.sample_rate : ℚ) * 1000)

/-- One iteration of the window-assignment loop of
`MediaCache._populate_cloud_batch_segments` (cache.py lines 532-553):
segment `i` gets the window `[current_start_sec, middle(pause)]`, the start
is inset by the edge step for `i > 0`, the end is always inset by the edge
step; if the inset window is inverted it falls back to the raw pause
interval, and if that is still inverted, to a 10-ms window. -/
def assignBatchWindow (i : ℕ) (currentStartSec : ℚ) (batchKey : String)
    (pause : PcmPause) : SegmentVariantTimes :=
  let segmentEndSec := pause.getMiddle
  let startSec := if 0 < i then currentStartSec + stepFromSilenceMiddleSec else currentStartSec
  let endSec := segmentEndSec - stepFromSilenceMiddleSec
  if endSec ≤ startSec then
    if pause.end_sec ≤ pause.start_sec then
      { audio_file_key := some batchKey, start_time_sec := pause.start_sec,
        end_time_sec := pause.start_sec + 1/100 }
    else
      { audio_file_key := some batchKey, start_time_sec := pause.start_sec,
        end_time_sec := pause.end_sec }
  else
    { audio_file_key := some batchKey, start_time_sec := startSec, end_time_sec := endSec }

/-- The window-assignment loop over the pauses paired positionally with the
segments; the cursor advanced to the next iteration is the uninset
`pause.get_middle()` (`current_start_sec = segment_end_sec`, cache.py:555). -/
def assignBatchLoop (batchKey : String) : ℕ → ℚ → List PcmPause → List SegmentVariantTimes
  | _, _, [] => []
  | i, cur, p :: ps =>
      assignBatchWindow i cur batchKey p :: assignBatchLoop batchKey (i + 1) p.getMiddle ps

/-- The variant list produced for one batch of `numSegments` segments by
`_populate_cloud_batch_segments` (cache.py lines 513-565): with no pauses,
every variant keeps the batch key with times (-1, -1); otherwise the first
`min(numSegments, pauses.length)` segments are assigned windows by the loop
starting from cursor 0 and index 0, and the tail segments past the pause
count keep the batch key with times (-1, -1). -/
def populateCloudBatchVariants (batchKey : String) (numSegments : ℕ)
    (pauses : List PcmPause) : List SegmentVariantTimes :=
  if pauses = [] then
    List.replicate numSegments
      { audio_file_key := some batchKey, start_time_sec := -1, end_time_sec := -1 }
  else
    let n := min numSegments pauses.length
    assignBatchLoop batchKey 0 0 (pauses.take n) ++
      List.replicate (numSegments - n)
        { audio_file_key := some batchKey, start_time_sec := -1, end_time_sec := -1 }

/-- `MediaCache._check_and_set_header` (cache.py lines 152-165): establishes
the master header from the first artifact, raises `AudioProcessingError` on
any later disagreeing header. Returns the (possibly newly set) master. -/
def checkAndSetHeader (master : Option WAVHeader) (header : WAVHeader) :
    Except String WAVHeader :=
  match master with
  | none => .ok header
  | some m => if header = m then .ok m else .error "Inconsistent WAV header detected"

/-- Folding `_check_and_set_header` over the headers of the artifacts
consulted during one job, in order, starting from the given master state. -/
def checkHeaders : Option WAVHeader → List WAVHeader → Except String (Option WAVHeader)
  | m, [] => .ok m
  | m, h :: hs =>
      match checkAndSetHeader m h with
      | .ok m' => checkHeaders (some m') hs
      | .error e => .error e

/-- `bytes_per_frame` as computed in `save_segment_bytes` (cache.py:626). -/
def bytesPerFrame (h : WAVHeader) : ℤ :=
  (h.channels : ℤ) * ((h.bit_depth / 8 : ℕ) : ℤ)

/-- The byte window computed by `save_segment_bytes` for a variant with
valid times (cache.py lines 620-629): endpoints from `bytes_for_duration`,
start clamped at 0, end clipped to the artifact length, both floor-aligned
to frame boundaries when the frame size is positive. -/
def segmentWindow (mh : WAVHeader) (content : AudioContent)
    (v : SegmentVariantTimes) : ℤ × ℤ :=
  let startByte := max 0 (bytesForDuration v.start_time_sec mh)
  let endByte := min (content.pcm_bytes.length : ℤ) (bytesForDuration v.end_time_sec mh)
  let bpf := bytesPerFrame mh
  if 0 < bpf then ((Int.fdiv startByte bpf) * bpf, (Int.fdiv endByte bpf) * bpf)
  else (startByte, endByte)

/-- `MediaCache.save_segment_bytes` (cache.py lines 597-648), with the
in-memory artifact table passed as a lookup function and the output stream
made explicit: the result is the `(duration_ms, written_bytes)` pair on
success (the written bytes are what the stream receives and the duration is
what the concatenator adds to its cursor), and `Except.error` models both
raised exceptions and the `exit(1)` on a half-set time range (cache.py:634). -/
def saveSegmentBytes (master : Option WAVHeader)
    (cache : String → Option AudioContent) (v : SegmentVariantTimes) :
    Except String (ℤ × List ℕ) :=
  match master with
  | none => .error "Master header is not set"
  | some mh =>
    match v.audio_file_key with
    | none => .ok (0, [])
    | some key =>
      match cache key with
      | none => .error "Audio content missing for key"
      | some content =>
        if content.header ≠ mh then .error "Segment header mismatch during saving"
        else if 0 ≤ v.start_time_sec ∧ v.start_time_sec ≤ v.end_time_sec then
          let w := segmentWindow mh content v
          if w.2 ≤ w.1 then .ok (0, [])
          else
            let written := (content.pcm_bytes.drop w.1.toNat).take (w.2 - w.1).toNat
            .ok (calculateDurationMs (written.length : ℤ) mh, written)
        else if v.start_time_sec = -1 ∧ v.end_time_sec = -1 then
          if (content.pcm_bytes.length : ℤ) ≤ 0 then .ok (0, [])
          else
            let written := content.pcm_bytes
            .ok (calculateDurationMs (written.length : ℤ) mh, written)
        else .error "invalid time range: exit(1)"

/-- The dynamic/fixed pause computed after a subgroup that produced content,
from `AudioGeneratorV1._save_card_audio` (generator.py lines 323-343). The
configuration fields are those read there. -/
structure PauseConfig where
  extra_delay_sec : ℚ
  delay_multiplier_for_file_segment : ℚ
  delay_after_orig_phrase_fix : Bool
  delay_after_orig_phrase_override_max : ℚ
deriving DecidableEq, Repr

/-- The pause in seconds requested after a subgroup (generator.py lines
323-343): the fixed override when declared, else
`subgroup_duration_ms / 1000 * multiplier + extra_delay_sec` with the
file-segment multiplier for FileCut-led subgroups, capped for Original
phrases when the cap flag is set, then clamped at 0. -/
def subgroupPauseSec (cfg : PauseConfig) (delayOverride : Bool)
    (delayOverrideSec : ℤ) (sgType : SubGroupType)
    (primaryType : Option SegmentType) (subgroupDurationMs : ℤ) : ℚ :=
  if delayOverride then (delayOverrideSec : ℚ)
  else
    let multiplier : ℚ :=
      if primaryType = some SegmentType.FILE_SEGMENT then
        cfg.delay_multiplier_for_file_segment
      else 1
    let basePauseSec := ((subgroupDurationMs : ℚ) / 1000) * multiplier
    let pauseSec := basePauseSec + cfg.extra_delay_sec
    let pauseSec :=
      if cfg.delay_after_orig_phrase_fix ∧ sgType = SubGroupType.ORIGINAL_PHRASE then
        min pauseSec cfg.delay_after_orig_phrase_override_max
      else pauseSec
    max 0 pauseSec

/-- The duration adjustment of `MediaCache.save_pause_bytes` (cache.py lines
672-681): for a BatchCloud-led subgroup the requested pause is shortened by
the batch break and lengthened by twice the edge step, floored at 0;
otherwise a negative request is clamped to 0. -/
def savePauseAdjustedSec (durationSec : ℚ) (segmentType : Option SegmentType) : ℚ :=
  if segmentType = some SegmentType.GENERATED_CLOUD_BATCH then
    max 0 (durationSec - pauseBreakSecInt + 2 * stepFromSilenceMiddleSec)
  else if durationSec < 0 then 0
  else durationSec

/-- `MediaCache._get_cached_silence_pauses` (cache.py lines 87-109) with the
file system made explicit: the outer `Option` is whether the cache file
exists, the inner `Option` is whether its JSON parses into a pause list.
The source returns `None` on a missing file, the parsed pauses on success,
and on a parse failure logs the error and calls `exit(1)` (cache.py:101)
before the `unlink` that would delete the corrupted file, so the
parse-failure case is modelled as a fatal `Except.error`. -/
def getCachedSilencePauses (cacheFile : Option (Option (List PcmPause))) :
    Except String (Option (List PcmPause)) :=
  match cacheFile with
  | none => .ok none
  | some none => .error "failed to parse silence cache file: exit(1)"
  | some (some pauses) => .ok (some pauses)

/-- Python's zero-padding format `f"{n:0Wd}"` for the nonnegative components
of a timestamp. -/
def padZeros (width : ℕ) (n : ℤ) : String :=
  let s := toString n
  String.mk (List.replicate (width - s.length) '0') ++ s

/-- The `HH:MM:SS,mmm` rendering of a (already clamped) nonnegative
millisecond count, from `Caption._to_subtitle_timestamp` (models.py lines
32-38): Python `//` and `%` are floor division and modulo. -/
def formatTimestamp (t : ℤ) : String :=
  let hours := Int.fdiv t (3600 * 1000)
  let rem := Int.fmod t (3600 * 1000)
  let minutes := Int.fdiv rem (60 * 1000)
  let rem2 := Int.fmod rem (60 * 1000)
  let seconds := Int.fdiv rem2 1000
  let milliseconds := Int.fmod rem2 1000
  padZeros 2 hours ++ ":" ++ padZeros 2 minutes ++ ":" ++ padZeros 2 seconds ++
    "," ++ padZeros 3 milliseconds

/-- `Caption._to_subtitle_timestamp` (models.py lines 28-38): clamps a
negative input to 0, then renders `HH:MM:SS,mmm`. -/
def toSubtitleTimestamp (totalMilliseconds : ℤ) : String :=
  formatTimestamp (if totalMilliseconds < 0 then 0 else totalMilliseconds)

/-- `Caption` from `models.py`: start/end in milliseconds, text, optional
index. -/
structure Caption where
  start_ts_ms : ℤ
  end_ts_ms : ℤ
  text : String
  index : Option ℤ := none
deriving DecidableEq, Repr

/-- `Caption.to_srt_segment` (models.py lines 40-49): renders one SRT block.
The caption text is emitted as `self.text` — the call to
`SsmlSrtFixer.fix_text_for_srt` is only present as a commented-out
placeholder (models.py lines 44-48), so no escaping is applied. -/
def Caption.toSrtSegment (c : Caption) (idx : ℤ) : String :=
  toString idx ++ "\n" ++ toSubtitleTimestamp c.start_ts_ms ++ " --> " ++
    toSubtitleTimestamp c.end_ts_ms ++ "\n" ++ c.text ++ "\n\n"

/-- Python `str.replace(pattern, repl)` for a single-character pattern:
every occurrence of the character is replaced by the string. -/
def replaceChar (l : List Char) (c : Char) (r : List Char) : List Char :=
  l.foldr (fun a acc => (if a = c then r else [a]) ++ acc) []

/-- `SsmlSrtFixer.fix_text_for_srt` (text_fixer.py lines 190-204): escapes
every `<` to `&lt;` and every `>` to `&gt;` (two successive
single-character `str.replace` passes). Defined in the source but never
called by `Caption.to_srt_segment` or `SubtitleGenerator.save_subtitles`. -/
def fixTextForSrt (text : String) : String :=
  if text = "" then ""
  else String.mk (replaceChar (replaceChar text.data '<' "&lt;".data) '>' "&gt;".data)

/-- Python `str.strip()`: removes leading and trailing whitespace
characters (the inputs here are covered by `Char.isWhitespace`). -/
def pyStrip (s : String) : String :=
  String.mk (((s.data.dropWhile Char.isWhitespace).reverse.dropWhile
    Char.isWhitespace).reverse)

/-- Whether `re.search(r'[.?!;,:\x2d]$', text)` matches: after stripping,
the text has no trailing newline, so the search succeeds exactly when the
last character is one of the terminators. -/
def endsWithTerminator (t : String) : Bool :=
  match t.toList.getLast? with
  | none => false
  | some c =>
      c == '.' || c == '?' || c == '!' || c == ';' || c == ',' || c == ':' || c == '-'

/-- The text normalization applied to every stored segment text:
`AudioGeneratorV1._create_segment` (generator.py:73) calls
`SsmlSrtFixer.fix_tss_text_segment(text)` with no `language` argument, so
inside `fix_tss_text_segment` (text_fixer.py lines 102-136) `language` is
`None`, the `language == Language.DE` branch (lines 128-130) is never taken
and the German date/number fixers are not invoked. What remains is: empty
text maps to empty, else strip, else append `"."` when the stripped text
does not end in a terminator. -/
def createSegmentText (text : String) : String :=
  if text = "" then ""
  else
    let t := pyStrip text
    if t = "" then ""
    else if endsWithTerminator t then t
    else t ++ "."

/-- The claim's closed-form description of segment `i`'s window in a batch:
the window `[cursor, middle(pause_i)]` with `cursor` the uninset mid-pause
of the previous pause (0 for the first segment), the start inset by the
edge step for every segment after the first, the end inset by the edge
step, falling back to the raw pause interval and then to a 10-ms window. -/
def specBatchWindow (batchKey : String) (pauses : List PcmPause) (i : ℕ) :
    Option SegmentVariantTimes :=
  pauses[i]?.map (fun p =>
    let cursor : ℚ :=
      if i = 0 then 0 else ((pauses[i-1]?).map PcmPause.getMiddle).getD 0
    let startSec := if i = 0 then cursor else cursor + stepFromSilenceMiddleSec
    let endSec := p.getMiddle - stepFromSilenceMiddleSec
    if startSec < endSec then
      { audio_file_key := some batchKey, start_time_sec := startSec,
        end_time_sec := endSec }
    else if p.start_sec < p.end_sec then
      { audio_file_key := some batchKey, start_time_sec := p.start_sec,
        end_time_sec := p.end_sec }
    else
      { audio_file_key := some batchKey, start_time_sec := p.start_sec,
        end_time_sec := p.start_sec + 1/100 })

/-! ## Theorems -/

/-- Helper: the assignment loop produces one variant per pause. -/
theorem assignBatchLoop_length (batchKey : String) (i0 : ℕ) (cur : ℚ)
    (ps : List PcmPause) :
    (assignBatchLoop batchKey i0 cur ps).length = ps.length := by
  induction ps generalizing i0 cur with
  | nil => rfl
  | cons p ps ih => simp [assignBatchLoop, ih]

/-- Helper: element `j` of the assignment loop started at index `i0` with
cursor `cur` is the window of pause `j` computed at index `i0 + j` with the
cursor equal to `cur` for `j = 0` and to the middle of pause `j - 1`
otherwise. -/
theorem assignBatchLoop_getElem (batchKey : String) (ps : List PcmPause)
    (i0 : ℕ) (cur : ℚ) (j : ℕ) :
    (assignBatchLoop batchKey i0 cur ps)[j]? =
      (ps[j]?).map (fun p =>
        assignBatchWindow (i0 + j)
          (if j = 0 then cur else ((ps[j-1]?).map PcmPause.getMiddle).getD 0)
          batchKey p) := by
  induction ps generalizing i0 cur j with
  | nil => simp [assignBatchLoop]
  | cons p ps ih =>
      match j with
      | 0 => simp [assignBatchLoop]
      | Nat.succ j' =>
          simp only [assignBatchLoop, List.getElem?_cons_succ]
          rw [ih (i0 + 1) p.getMiddle j']
          match j' with
          | 0 => simp [Nat.add_comm]
          | Nat.succ k =>
              simp only [List.getElem?_cons_succ, Nat.succ_sub_one]
              have : i0 + 1 + (k + 1) = i0 + (k + 1 + 1) := by omega
              simp [this]

/-- Helper: the loop body agrees with the claim's branch structure. -/
theorem assignBatchWindow_eq_spec (i : ℕ) (cur : ℚ) (key : String)
    (p : PcmPause) :
    assignBatchWindow i cur key p =
      (let startSec := if i = 0 then cur else cur + stepFromSilenceMiddleSec
      let endSec := p.getMiddle - stepFromSilenceMiddleSec
      if startSec < endSec then
        { audio_file_key := some key, start_time_sec := startSec,
          end_time_sec := endSec }
      else if p.start_sec < p.end_sec then
        { audio_file_key := some key, start_time_sec := p.start_sec,
          end_time_sec := p.end_sec }
      else
        { audio_file_key := some key, start_time_sec := p.start_sec,
          end_time_sec := p.start_sec + 1/100 }) := by
  unfold assignBatchWindow
  have hsx : (if 0 < i then cur + stepFromSilenceMiddleSec else cur) =
      (if i = 0 then cur else cur + stepFromSilenceMiddleSec) := by
    rcases Nat.eq_zero_or_pos i with h | h
    · simp [h]
    · simp [h, Nat.pos_iff_ne_zero.mp h]
  simp only [hsx]
  set s := if i = 0 then cur else cur + stepFromSilenceMiddleSec with hs
  set e := p.getMiddle - stepFromSilenceMiddleSec with he
  by_cases h1 : s < e
  · rw [if_neg (not_le.mpr h1), if_pos h1]
  · rw [if_pos (not_lt.mp h1), if_neg h1]
    by_cases h2 : p.start_sec < p.end_sec
    · rw [if_neg (not_le.mpr h2), if_pos h2]
    · rw [if_pos (not_lt.mp h2), if_neg h2]

/-- Helper: Python rounding never overshoots by more than half. -/
theorem pyRound_le (q : ℚ) : (pyRound q : ℚ) ≤ q + 1/2 := by
  unfold pyRound
  dsimp only
  have h0 : (0 : ℚ) ≤ q - ⌊q⌋ := by
    have := Int.fract_nonneg q
    rw [Int.fract] at this
    exact this
  have h1 : q - ⌊q⌋ < 1 := by
    have := Int.fract_lt_one q
    rw [Int.fract] at this
    exact this
  split_ifs with ha hb hc
  · push_cast
    linarith
  · push_cast
    linarith
  · rw [not_lt] at ha
    push_cast
    linarith
  · rw [not_lt] at ha hb
    push_cast
    linarith

/-- Helper: Python rounding never undershoots by more than half. -/
theorem pyRound_ge (q : ℚ) : q - 1/2 ≤ (pyRound q : ℚ) := by
  unfold pyRound
  dsimp only
  have h1 : q - ⌊q⌋ < 1 := by
    have := Int.fract_lt_one q
    rw [Int.fract] at this
    exact this
  split_ifs with ha hb hc
  · push_cast
    linarith
  · push_cast
    linarith
  · rw [not_lt] at ha hb
    push_cast
    linarith
  · rw [not_lt] at ha hb
    push_cast
    linarith

/-- Helper: Python rounding of a nonnegative rational is nonnegative. -/
theorem pyRound_nonneg (q : ℚ) (h : 0 ≤ q) : 0 ≤ pyRound q := by
  unfold pyRound
  dsimp only
  have h0 : 0 ≤ ⌊q⌋ := Int.floor_nonneg.mpr h
  split_ifs <;> omega

/-- Helper: truncation toward zero agrees with the floor on nonnegative
rationals. -/
theorem pyTrunc_eq_floor (q : ℚ) (h : 0 ≤ q) : pyTrunc q = ⌊q⌋ := by
  unfold pyTrunc
  rw [if_neg (not_lt.mpr h)]

/-- Helper: floor-aligning down never overshoots. -/
theorem fdiv_mul_le (n d : ℤ) (hd : 0 < d) : (Int.fdiv n d) * d ≤ n := by
  have h := Int.fmod_add_fdiv n d
  have h2 := Int.fmod_nonneg' n hd
  rw [mul_comm]
  linarith

/-- Helper: floor-aligning down loses less than one frame. -/
theorem sub_lt_fdiv_mul (n d : ℤ) (hd : 0 < d) : n - d < (Int.fdiv n d) * d := by
  have h := Int.fmod_add_fdiv n d
  have h3 := Int.fmod_lt_of_pos n hd
  rw [mul_comm]
  linarith

/-- Core arithmetic bound for C8: if `n0` approximates `s` scaled by the
byte rate to within half a byte, and `X` is `n0` aligned down by less than
one frame of `c × f` bytes, then the floored millisecond count of `X` lies
in `(1000 s - 2, 1000 s + 1]`. All quantities are cast atoms over ℕ/ℤ. -/
theorem roundtrip_core (s : ℚ) (c f R : ℕ) (n0 X : ℤ)
    (hs : 0 ≤ s) (hc : 1 ≤ c) (hf : 1 ≤ f) (hR : 1000 ≤ R)
    (hn0ub : (n0 : ℚ) ≤ s * ((R : ℚ) * c * f) + 1/2)
    (hn0lb : s * ((R : ℚ) * c * f) - 1/2 ≤ (n0 : ℚ))
    (hXub : (X : ℚ) ≤ (n0 : ℚ))
    (hXlb : (n0 : ℚ) - (c : ℚ) * f + 1 ≤ (X : ℚ)) :
    1000 * s - 2 < (⌊(X : ℚ) / ((f : ℚ) * c) / (R : ℚ) * 1000⌋ : ℚ) ∧
    (⌊(X : ℚ) / ((f : ℚ) * c) / (R : ℚ) * 1000⌋ : ℚ) ≤ 1000 * s + 1 := by
  have hCq : (1 : ℚ) ≤ (c : ℚ) := by exact_mod_cast hc
  have hFq : (1 : ℚ) ≤ (f : ℚ) := by exact_mod_cast hf
  have hRq : (1000 : ℚ) ≤ (R : ℚ) := by exact_mod_cast hR
  have hCF : (1 : ℚ) ≤ (f : ℚ) * c := by nlinarith
  have hDpos : (0 : ℚ) < (f : ℚ) * c * R := by nlinarith
  have hD1000 : (1000 : ℚ) ≤ (f : ℚ) * c * R := by nlinarith
  have hy_eq : (X : ℚ) / ((f : ℚ) * c) / (R : ℚ) * 1000 =
      (X : ℚ) * 1000 / ((f : ℚ) * c * R) := by
    rw [div_div, div_mul_eq_mul_div]
  rw [hy_eq]
  constructor
  · have hfl := Int.sub_one_lt_floor ((X : ℚ) * 1000 / ((f : ℚ) * c * R))
    have hy_lb : 1000 * s - 1 ≤ (X : ℚ) * 1000 / ((f : ℚ) * c * R) := by
      rw [le_div_iff₀ hDpos]
      have hkey : (0 : ℚ) ≤ ((R : ℚ) - 1000) * ((c : ℚ) * f) := by
        apply mul_nonneg (by linarith)
        nlinarith
      nlinarith [hXlb, hn0lb, hkey]
    linarith
  · have hfl := Int.floor_le ((X : ℚ) * 1000 / ((f : ℚ) * c * R))
    have hy_ub : (X : ℚ) * 1000 / ((f : ℚ) * c * R) ≤ 1000 * s + 1/2 := by
      rw [div_le_iff₀ hDpos]
      nlinarith [hXub, hn0ub, hD1000]
    linarith

/-- C8 (amended): for nonnegative durations and headers with positive
channels, a whole number of bytes per sample (`8 ≤ bit_depth`) and frame
duration at most 1 ms (`1000 ≤ sample_rate`), `bytes_for_duration` returns
a multiple of the frame size, and the round trip through
`calculate_duration_ms` lands within `(s×1000 - 2, s×1000 + 1]` — the
down-alignment to a whole frame plus the floor in the millisecond
conversion can drift slightly more than 1 ms below `s×1000`, so the
claimed ±1 ms bound must widen to 2 ms on the low side. -/
theorem duration_roundtrip_amended (s : ℚ) (h : WAVHeader) (hs : 0 ≤ s)
    (hr : 1000 ≤ h.sample_rate) (hbd : 8 ≤ h.bit_depth) (hch : 0 < h.channels) :
    bytesPerFrame h ∣ bytesForDuration s h ∧
    1000 * s - 2 < (calculateDurationMs (bytesForDuration s h) h : ℚ) ∧
    (calculateDurationMs (bytesForDuration s h) h : ℚ) ≤ 1000 * s + 1 := by
  have hfnat : 1 ≤ h.bit_depth / 8 :=
    (Nat.le_div_iff_mul_le (by norm_num)).mpr (by omega)
  have hc1 : (1 : ℤ) ≤ (h.channels : ℤ) := by exact_mod_cast hch
  have hfq1 : (1 : ℤ) ≤ ((h.bit_depth / 8 : ℕ) : ℤ) := by exact_mod_cast hfnat
  have hFz : (0 : ℤ) < (h.channels : ℤ) * ((h.bit_depth / 8 : ℕ) : ℤ) := by
    nlinarith
  have hXdef : bytesForDuration s h =
      (Int.fdiv
          (pyRound (s * ((((h.sample_rate : ℤ) * (h.channels : ℤ) *
            ((h.bit_depth / 8 : ℕ) : ℤ) : ℤ)) : ℚ)))
          ((h.channels : ℤ) * ((h.bit_depth / 8 : ℕ) : ℤ))) *
        ((h.channels : ℤ) * ((h.bit_depth / 8 : ℕ) : ℤ)) := by
    unfold bytesForDuration
    rw [if_neg (not_lt.mpr hs)]
    dsimp only
    rw [if_pos hFz]
  set n0 : ℤ := pyRound (s * ((((h.sample_rate : ℤ) * (h.channels : ℤ) *
    ((h.bit_depth / 8 : ℕ) : ℤ) : ℤ)) : ℚ)) with hn0def
  set X : ℤ := (Int.fdiv n0 ((h.channels : ℤ) * ((h.bit_depth / 8 : ℕ) : ℤ))) *
    ((h.channels : ℤ) * ((h.bit_depth / 8 : ℕ) : ℤ)) with hXd
  have hBnn : (0 : ℚ) ≤ ((((h.sample_rate : ℤ) * (h.channels : ℤ) *
      ((h.bit_depth / 8 : ℕ) : ℤ) : ℤ)) : ℚ) := by positivity
  have hn00 : 0 ≤ n0 := pyRound_nonneg _ (mul_nonneg hs hBnn)
  have hX0 : 0 ≤ X :=
    mul_nonneg (Int.fdiv_nonneg hn00 hFz.le) hFz.le
  have hXub : X ≤ n0 := fdiv_mul_le n0 _ hFz
  have hXlb : n0 - (h.channels : ℤ) * ((h.bit_depth / 8 : ℕ) : ℤ) + 1 ≤ X :=
    Int.add_one_le_iff.mpr (sub_lt_fdiv_mul n0 _ hFz)
  have hFne : ¬(((h.bit_depth / 8 : ℕ) : ℤ) * (h.channels : ℤ) = 0) := by
    intro hzero
    nlinarith
  have hcalc : calculateDurationMs X h =
      pyTrunc ((X : ℚ) /
        ((((h.bit_depth / 8 : ℕ) : ℤ) * (h.channels : ℤ) : ℤ) : ℚ) /
        (h.sample_rate : ℚ) * 1000) := by
    unfold calculateDurationMs
    rw [if_neg (by push_neg; refine ⟨by omega, by omega, by omega⟩)]
    dsimp only
    rw [if_neg hFne]
  have hcast1 : (((((h.sample_rate : ℤ) * (h.channels : ℤ) *
      ((h.bit_depth / 8 : ℕ) : ℤ) : ℤ)) : ℚ)) =
      (h.sample_rate : ℚ) * (h.channels : ℚ) * ((h.bit_depth / 8 : ℕ) : ℚ) := by
    rw [Int.cast_mul, Int.cast_mul, Int.cast_natCast, Int.cast_natCast,
      Int.cast_natCast]
  have hcast2 : (((((h.bit_depth / 8 : ℕ) : ℤ) * (h.channels : ℤ) : ℤ)) : ℚ) =
      ((h.bit_depth / 8 : ℕ) : ℚ) * (h.channels : ℚ) := by
    rw [Int.cast_mul, Int.cast_natCast, Int.cast_natCast]
  have hn0ub : (n0 : ℚ) ≤ s * ((h.sample_rate : ℚ) * (h.channels : ℚ) *
      ((h.bit_depth / 8 : ℕ) : ℚ)) + 1/2 := by
    have hb := pyRound_le (s * ((((h.sample_rate : ℤ) * (h.channels : ℤ) *
      ((h.bit_depth / 8 : ℕ) : ℤ) : ℤ)) : ℚ))
    rw [← hn0def] at hb
    rw [hcast1] at hb
    exact hb
  have hn0lb : s * ((h.sample_rate : ℚ) * (h.channels : ℚ) *
      ((h.bit_depth / 8 : ℕ) : ℚ)) - 1/2 ≤ (n0 : ℚ) := by
    have hb := pyRound_ge (s * ((((h.sample_rate : ℤ) * (h.channels : ℤ) *
      ((h.bit_depth / 8 : ℕ) : ℤ) : ℤ)) : ℚ))
    rw [← hn0def] at hb
    rw [hcast1] at hb
    exact hb
  have hXubq : (X : ℚ) ≤ (n0 : ℚ) := by exact_mod_cast hXub
  have hXlbq : (n0 : ℚ) - (h.channels : ℚ) * ((h.bit_depth / 8 : ℕ) : ℚ) + 1 ≤
      (X : ℚ) := by
    have h1 : ((n0 - (h.channels : ℤ) * ((h.bit_depth / 8 : ℕ) : ℤ) + 1 : ℤ) : ℚ) ≤
        ((X : ℤ) : ℚ) := Int.cast_le.mpr hXlb
    rw [Int.cast_add, Int.cast_sub, Int.cast_mul, Int.cast_natCast,
      Int.cast_natCast, Int.cast_one] at h1
    exact h1
  have hcore := roundtrip_core s h.channels (h.bit_depth / 8) h.sample_rate n0 X
    hs hch hfnat hr hn0ub hn0lb hXubq hXlbq
  have hy0 : (0 : ℚ) ≤ (X : ℚ) /
      ((((h.bit_depth / 8 : ℕ) : ℤ) * (h.channels : ℤ) : ℤ) : ℚ) /
      (h.sample_rate : ℚ) * 1000 := by
    apply mul_nonneg _ (by norm_num)
    apply div_nonneg _ (by positivity)
    apply div_nonneg (by exact_mod_cast hX0) (by positivity)
  rw [hXdef]
  refine ⟨⟨Int.fdiv n0 ((h.channels : ℤ) * ((h.bit_depth / 8 : ℕ) : ℤ)), ?_⟩, ?_, ?_⟩
  · unfold bytesPerFrame
    rw [hXd]
    exact mul_comm _ _
  · rw [hcalc, pyTrunc_eq_floor _ hy0, hcast2]
    exact hcore.1
  · rw [hcalc, pyTrunc_eq_floor _ hy0, hcast2]
    exact hcore.2

/-- Counterexample for C8 as claimed: at `s = 265/44100` s (about 6.009 ms)
with the default 22050 Hz 16-bit mono header, the byte count rounds to 265
and aligns down to 264, whose millisecond conversion floors to 5 ms, which
is more than 1 ms below `s×1000 = 2650/441 ≈ 6.009` — the claimed ±1 ms
round-trip bound fails. -/
theorem duration_roundtrip_counterexample :
    ¬(|(calculateDurationMs
          (bytesForDuration (265/44100) WAVHeader.getDefault)
          WAVHeader.getDefault : ℚ) - (265/44100) * 1000| ≤ 1) := by
  have h1 : calculateDurationMs
      (bytesForDuration (265/44100) WAVHeader.getDefault)
      WAVHeader.getDefault = 5 := by
    unfold bytesForDuration calculateDurationMs pyRound pyTrunc
    norm_num [WAVHeader.getDefault, Int.fdiv]
  rw [h1]
  rw [abs_le]
  norm_num

/-- Witness for the amended C8: the theorem applied at one second with the
default header. -/
theorem duration_roundtrip_amended_witness :
    bytesPerFrame WAVHeader.getDefault ∣
      bytesForDuration 1 WAVHeader.getDefault ∧
    1000 * (1 : ℚ) - 2 <
      (calculateDurationMs (bytesForDuration 1 WAVHeader.getDefault)
        WAVHeader.getDefault : ℚ) ∧
    (calculateDurationMs (bytesForDuration 1 WAVHeader.getDefault)
      WAVHeader.getDefault : ℚ) ≤ 1000 * 1 + 1 :=
  duration_roundtrip_amended 1 WAVHeader.getDefault (by norm_num)
    (by decide) (by decide) (by decide)

/-- C5: the claim says a silence-map cache file that exists but cannot be
parsed is treated as a miss, deleted, and the job proceeds, but
`_get_cached_silence_pauses` calls `exit(1)` (cache.py:101) before the
`unlink` that would delete it, so the lookup aborts the process instead:
evaluating the embedded lookup at a present-but-corrupt cache file yields
the fatal error. -/
theorem corrupt_silence_cache_aborts :
    getCachedSilencePauses (some none) =
      .error "failed to parse silence cache file: exit(1)" := rfl

/-- C6: the claim says German text gets the German-specific replacements
(day ordinals, thousands-dot removal, decimal comma as "Punkt") before
insertion, but `_create_segment` (generator.py:73) never passes the
language, so only trim and terminator-append happen: the stored text for
German inputs keeps the raw day number and the thousands dot. -/
theorem german_fixes_not_applied :
    createSegmentText " Am 3. Juni kommt sie " = "Am 3. Juni kommt sie." ∧
    createSegmentText "Das kostet 1.000 Euro" = "Das kostet 1.000 Euro." ∧
    createSegmentText "Es sind 2,5 Kilometer" = "Es sind 2,5 Kilometer." := by
  refine ⟨?_, ?_, ?_⟩ <;> decide

/-- C7: the claim says every `<` and `>` in a caption written to the SRT
file is escaped to `&lt;`/`&gt;`, but `Caption.to_srt_segment` emits
`self.text` unescaped (the `fix_text_for_srt` call is a commented-out
placeholder, models.py:44-48, and `save_subtitles` adds no escaping): the
emitted block keeps the angle brackets verbatim, while the unused
`fix_text_for_srt` is exactly the escaping the claim describes. -/
theorem srt_caption_text_not_escaped :
    Caption.toSrtSegment { start_ts_ms := 0, end_ts_ms := 1000, text := "a<b>c" } 1 =
      "1\n00:00:00,000 --> 00:00:01,000\na<b>c\n\n" ∧
    fixTextForSrt "a<b>c" = "a&lt;b&gt;c" := by
  refine ⟨?_, ?_⟩ <;> decide

/-- C10: `_to_subtitle_timestamp` is total over all integer millisecond
inputs, renders a negative input exactly as it renders 0, and renders every
nonpositive input as `00:00:00,000`, so no rendered timestamp is ever below
`00:00:00,000`. -/
theorem srt_timestamp_clamps_negative (ms : ℤ) :
    toSubtitleTimestamp ms = toSubtitleTimestamp (max ms 0) ∧
    (ms ≤ 0 → toSubtitleTimestamp ms = "00:00:00,000") := by
  constructor
  · unfold toSubtitleTimestamp
    rcases lt_or_le ms 0 with h | h
    · rw [max_eq_right h.le, if_pos h, if_neg (lt_irrefl (0 : ℤ))]
    · rw [max_eq_left h]
  · intro h
    rcases lt_or_eq_of_le h with h0 | h0
    · unfold toSubtitleTimestamp
      rw [if_pos h0]
      decide
    · subst h0
      decide

/-- Witness for C10: the theorem applied at the concrete input -5. -/
theorem srt_timestamp_clamps_negative_witness :
    toSubtitleTimestamp (-5) = "00:00:00,000" :=
  (srt_timestamp_clamps_negative (-5)).2 (by norm_num)

/-- C1: in BatchCloud realization, when the detected pause count is at
least the batch's segment count, segment `i`'s assigned window is exactly
the claim's description (`specBatchWindow`): cursor to mid-pause, edge-step
insets (start only after the first segment), fallback to the raw pause
interval and then to a 10-ms window, with the cursor for the next segment
always the uninset mid-pause of the previous pause. -/
theorem batch_window_assignment (batchKey : String) (numSegments : ℕ)
    (pauses : List PcmPause) (hn : numSegments ≤ pauses.length)
    (i : ℕ) (hi : i < numSegments) :
    (populateCloudBatchVariants batchKey numSegments pauses)[i]? =
      specBatchWindow batchKey pauses i := by
  have hlen : 0 < pauses.length :=
    lt_of_lt_of_le (Nat.lt_of_le_of_lt (Nat.zero_le i) hi) hn
  have hnil : pauses ≠ [] := by
    intro h
    rw [h] at hlen
    simp at hlen
  unfold populateCloudBatchVariants
  rw [if_neg hnil]
  have hmin : min numSegments pauses.length = numSegments := min_eq_left hn
  simp only [hmin]
  have hlt : i < (assignBatchLoop batchKey 0 0 (pauses.take numSegments)).length := by
    rw [assignBatchLoop_length, List.length_take, hmin]
    exact hi
  rw [List.getElem?_append_left hlt, assignBatchLoop_getElem]
  unfold specBatchWindow
  have h1 : (pauses.take numSegments)[i]? = pauses[i]? :=
    List.getElem?_take_of_lt hi
  have h2 : (pauses.take numSegments)[i-1]? = pauses[i-1]? :=
    List.getElem?_take_of_lt (by omega)
  rw [h1]
  simp only [h2]
  rw [List.getElem?_eq_getElem (lt_of_lt_of_le hi hn)]
  simp only [Option.map_some', Nat.zero_add]
  rw [assignBatchWindow_eq_spec]

/-- Witness for C1: the theorem applied to a concrete two-pause,
two-segment batch at index 1. -/
theorem batch_window_assignment_witness :
    (populateCloudBatchVariants "k" 2
        [{ start_sec := 1, end_sec := 3 }, { start_sec := 5, end_sec := 7 }])[1]? =
      specBatchWindow "k"
        [{ start_sec := 1, end_sec := 3 }, { start_sec := 5, end_sec := 7 }] 1 :=
  batch_window_assignment "k" 2
    [{ start_sec := 1, end_sec := 3 }, { start_sec := 5, end_sec := 7 }]
    (by simp) 1 (by norm_num)

/-- Helper: the middle of a pause with nonnegative endpoints is
nonnegative. -/
theorem getMiddle_nonneg (p : PcmPause) (h1 : 0 ≤ p.start_sec)
    (h2 : 0 ≤ p.end_sec) : 0 ≤ p.getMiddle := by
  unfold PcmPause.getMiddle
  linarith

/-- Helper: every window the assignment loop body produces carries the
batch key and is valid (`0 ≤ start < end`), provided the cursor and the
pause endpoints are nonnegative. -/
theorem assignBatchWindow_valid (i : ℕ) (cur : ℚ) (key : String)
    (p : PcmPause) (hcur : 0 ≤ cur) (hps : 0 ≤ p.start_sec) :
    (assignBatchWindow i cur key p).audio_file_key = some key ∧
    0 ≤ (assignBatchWindow i cur key p).start_time_sec ∧
    (assignBatchWindow i cur key p).start_time_sec <
      (assignBatchWindow i cur key p).end_time_sec := by
  have hstep : (0 : ℚ) ≤ stepFromSilenceMiddleSec := by
    norm_num [stepFromSilenceMiddleSec]
  by_cases hc : 0 < i
  · simp only [assignBatchWindow, if_pos hc]
    split_ifs with h1 h2
    · refine ⟨rfl, hps, ?_⟩
      show p.start_sec < p.start_sec + 1/100
      linarith
    · exact ⟨rfl, hps, not_le.mp h2⟩
    · refine ⟨rfl, ?_, not_le.mp h1⟩
      show (0 : ℚ) ≤ cur + stepFromSilenceMiddleSec
      linarith
  · simp only [assignBatchWindow, if_neg hc]
    split_ifs with h1 h2
    · refine ⟨rfl, hps, ?_⟩
      show p.start_sec < p.start_sec + 1/100
      linarith
    · exact ⟨rfl, hps, not_le.mp h2⟩
    · exact ⟨rfl, hcur, not_le.mp h1⟩

/-- C2: for a batch whose detected pause count is smaller than its segment
count, the variant list still has one entry per segment, the first
`pauses.length` segments receive valid windows (`0 ≤ start < end`) carrying
the batch key, every tail segment's variant gets `start = end = -1` while
still carrying the batch key, the mismatch raises no error (the embedded
population is total), and `save_segment_bytes` on such a tail variant
succeeds and writes the batch artifact's entire PCM bytes. -/
theorem pause_mismatch_fallback (batchKey : String) (numSegments : ℕ)
    (pauses : List PcmPause) (mh : WAVHeader)
    (cache : String → Option AudioContent) (content : AudioContent)
    (hmm : pauses.length < numSegments)
    (hwf : ∀ p ∈ pauses, 0 ≤ p.start_sec ∧ 0 ≤ p.end_sec)
    (hcache : cache batchKey = some content) (hhdr : content.header = mh)
    (hne : content.pcm_bytes ≠ []) :
    (populateCloudBatchVariants batchKey numSegments pauses).length = numSegments ∧
    (∀ i, i < pauses.length →
      ∃ v, (populateCloudBatchVariants batchKey numSegments pauses)[i]? = some v ∧
        v.audio_file_key = some batchKey ∧ 0 ≤ v.start_time_sec ∧
        v.start_time_sec < v.end_time_sec) ∧
    (∀ i, pauses.length ≤ i → i < numSegments →
      (populateCloudBatchVariants batchKey numSegments pauses)[i]? =
        some { audio_file_key := some batchKey, start_time_sec := -1,
               end_time_sec := -1 }) ∧
    saveSegmentBytes (some mh) cache
        { audio_file_key := some batchKey, start_time_sec := -1,
          end_time_sec := -1 } =
      .ok (calculateDurationMs (content.pcm_bytes.length : ℤ) mh,
        content.pcm_bytes) := by
  have hminr : min numSegments pauses.length = pauses.length :=
    min_eq_right (le_of_lt hmm)
  refine ⟨?_, ?_, ?_, ?_⟩
  · unfold populateCloudBatchVariants
    by_cases hnil : pauses = []
    · rw [if_pos hnil]
      simp
    · rw [if_neg hnil]
      simp only [List.length_append, assignBatchLoop_length, List.length_take,
        List.length_replicate, hminr]
      omega
  · intro i hi
    have hnil : pauses ≠ [] := by
      intro h
      rw [h] at hi
      simp at hi
    unfold populateCloudBatchVariants
    rw [if_neg hnil]
    simp only [hminr, List.take_length]
    have hlt : i < (assignBatchLoop batchKey 0 0 pauses).length := by
      rw [assignBatchLoop_length]
      exact hi
    rw [List.getElem?_append_left hlt, assignBatchLoop_getElem]
    rw [List.getElem?_eq_getElem hi]
    simp only [Option.map_some', Nat.zero_add]
    refine ⟨_, rfl, ?_⟩
    apply assignBatchWindow_valid
    · split_ifs with hi0
      · exact le_refl 0
      · have hi1 : i - 1 < pauses.length := by omega
        rw [List.getElem?_eq_getElem hi1]
        simp only [Option.map_some', Option.getD_some]
        have hmem := List.getElem_mem hi1
        exact getMiddle_nonneg _ (hwf _ hmem).1 (hwf _ hmem).2
    · exact (hwf _ (List.getElem_mem hi)).1
  · intro i hge hlt
    unfold populateCloudBatchVariants
    by_cases hnil : pauses = []
    · rw [if_pos hnil]
      simp [List.getElem?_replicate, hlt]
    · rw [if_neg hnil]
      simp only [hminr, List.take_length]
      rw [List.getElem?_append_right (by rw [assignBatchLoop_length]; exact hge)]
      rw [assignBatchLoop_length]
      have hx : i - pauses.length < numSegments - pauses.length := by omega
      simp [List.getElem?_replicate, hx]
  · unfold saveSegmentBytes
    subst hhdr
    simp only [hcache]
    have hpos : (0 : ℤ) < (content.pcm_bytes.length : ℤ) := by
      exact_mod_cast List.length_pos.mpr hne
    norm_num [not_le.mpr hpos]

/-- Witness for C2: the theorem applied to a concrete three-segment batch
with two detected pauses over a four-byte artifact. -/
theorem pause_mismatch_fallback_witness :
    (populateCloudBatchVariants "k" 3
        [{ start_sec := 1, end_sec := 3 }, { start_sec := 5, end_sec := 7 }]).length = 3 ∧
    (∀ i, i < ([{ start_sec := 1, end_sec := 3 },
          { start_sec := 5, end_sec := 7 }] : List PcmPause).length →
      ∃ v, (populateCloudBatchVariants "k" 3
          [{ start_sec := 1, end_sec := 3 }, { start_sec := 5, end_sec := 7 }])[i]? =
            some v ∧
        v.audio_file_key = some "k" ∧ 0 ≤ v.start_time_sec ∧
        v.start_time_sec < v.end_time_sec) ∧
    (∀ i, ([{ start_sec := 1, end_sec := 3 },
          { start_sec := 5, end_sec := 7 }] : List PcmPause).length ≤ i → i < 3 →
      (populateCloudBatchVariants "k" 3
          [{ start_sec := 1, end_sec := 3 }, { start_sec := 5, end_sec := 7 }])[i]? =
        some { audio_file_key := some "k", start_time_sec := -1,
               end_time_sec := -1 }) ∧
    saveSegmentBytes (some WAVHeader.getDefault)
        (fun k => if k = "k" then
          some { header := WAVHeader.getDefault, pcm_bytes := [1, 2, 3, 4] }
          else none)
        { audio_file_key := some "k", start_time_sec := -1, end_time_sec := -1 } =
      .ok (calculateDurationMs (([1, 2, 3, 4] : List ℕ).length : ℤ)
          WAVHeader.getDefault, [1, 2, 3, 4]) :=
  pause_mismatch_fallback "k" 3
    [{ start_sec := 1, end_sec := 3 }, { start_sec := 5, end_sec := 7 }]
    WAVHeader.getDefault
    (fun k => if k = "k" then
      some { header := WAVHeader.getDefault, pcm_bytes := [1, 2, 3, 4] }
      else none)
    { header := WAVHeader.getDefault, pcm_bytes := [1, 2, 3, 4] }
    (by norm_num)
    (by
      intro p hp
      rcases List.mem_cons.mp hp with h | hp
      · subst h
        norm_num
      · rcases List.mem_cons.mp hp with h | hp
        · subst h
          norm_num
        · simp at hp)
    (by decide) rfl (by decide)

/-- C4: for a subgroup that produced content (`0 < durMs`) and has no fixed
delay override, the pause duration handed to silence generation is
`max(0, durMs/1000 × multiplier + extra_delay_sec)` with the file-segment
multiplier exactly for FileCut-led subgroups, clipped to the configured
maximum before the clamp when the cap flag is set and the subgroup is an
Original phrase, and additionally shifted by `-batch_break + 2×edge_step`
(floored at 0) when the leading strategy is BatchCloud. -/
theorem dynamic_pause_formula (cfg : PauseConfig) (sgType : SubGroupType)
    (primaryType : Option SegmentType) (durMs : ℤ) (hContent : 0 < durMs) :
    savePauseAdjustedSec
        (subgroupPauseSec cfg false 0 sgType primaryType durMs) primaryType =
      (let multiplier : ℚ :=
        if primaryType = some SegmentType.FILE_SEGMENT then
          cfg.delay_multiplier_for_file_segment
        else 1
      let dyn : ℚ := (durMs : ℚ) / 1000 * multiplier + cfg.extra_delay_sec
      let capped : ℚ :=
        if cfg.delay_after_orig_phrase_fix ∧ sgType = SubGroupType.ORIGINAL_PHRASE then
          min dyn cfg.delay_after_orig_phrase_override_max
        else dyn
      let pauseSec : ℚ := max 0 capped
      if primaryType = some SegmentType.GENERATED_CLOUD_BATCH then
        max 0 (pauseSec - pauseBreakSecInt + 2 * stepFromSilenceMiddleSec)
      else pauseSec) := by
  unfold savePauseAdjustedSec subgroupPauseSec
  have h0 : ∀ x : ℚ, ¬ (max 0 x < 0) := fun x => not_lt.mpr (le_max_left 0 x)
  by_cases hb : primaryType = some SegmentType.GENERATED_CLOUD_BATCH
  · simp [hb]
  · simp [hb, h0]

/-- Witness for C4: the theorem applied at a concrete capped BatchCloud
configuration. -/
theorem dynamic_pause_formula_witness :
    savePauseAdjustedSec
        (subgroupPauseSec
          { extra_delay_sec := 1/2, delay_multiplier_for_file_segment := 11/10,
            delay_after_orig_phrase_fix := true,
            delay_after_orig_phrase_override_max := 3 }
          false 0 SubGroupType.ORIGINAL_PHRASE
          (some SegmentType.GENERATED_CLOUD_BATCH) 2000)
        (some SegmentType.GENERATED_CLOUD_BATCH) =
      (let multiplier : ℚ :=
        if (some SegmentType.GENERATED_CLOUD_BATCH : Option SegmentType) =
            some SegmentType.FILE_SEGMENT then 11/10 else 1
      let dyn : ℚ := ((2000 : ℤ) : ℚ) / 1000 * multiplier + 1/2
      let capped : ℚ :=
        if (true : Bool) = true ∧
            SubGroupType.ORIGINAL_PHRASE = SubGroupType.ORIGINAL_PHRASE then
          min dyn 3
        else dyn
      let pauseSec : ℚ := max 0 capped
      if (some SegmentType.GENERATED_CLOUD_BATCH : Option SegmentType) =
          some SegmentType.GENERATED_CLOUD_BATCH then
        max 0 (pauseSec - pauseBreakSecInt + 2 * stepFromSilenceMiddleSec)
      else pauseSec) :=
  dynamic_pause_formula
    { extra_delay_sec := 1/2, delay_multiplier_for_file_segment := 11/10,
      delay_after_orig_phrase_fix := true,
      delay_after_orig_phrase_override_max := 3 }
    SubGroupType.ORIGINAL_PHRASE (some SegmentType.GENERATED_CLOUD_BATCH) 2000
    (by norm_num)

/-- Helper for C3: once a master header is set, a successful fold of
`_check_and_set_header` keeps it and forces every later header to equal it. -/
theorem checkHeaders_some_ok (m0 : WAVHeader) (hs : List WAVHeader)
    (r : Option WAVHeader) (h : checkHeaders (some m0) hs = .ok r) :
    r = some m0 ∧ ∀ x ∈ hs, x = m0 := by
  induction hs with
  | nil =>
      simp only [checkHeaders] at h
      cases h
      exact ⟨rfl, by simp⟩
  | cons a as ih =>
      simp only [checkHeaders, checkAndSetHeader] at h
      by_cases hax : a = m0
      · rw [if_pos hax] at h
        obtain ⟨hr, hall⟩ := ih h
        exact ⟨hr, by
          intro x hx
          rcases List.mem_cons.mp hx with hx | hx
          · exact hx.trans hax
          · exact hall x hx⟩
      · rw [if_neg hax] at h
        cases h

/-- C3: the master-header invariant. A successful pass of
`_check_and_set_header` over the headers of all artifacts consulted in a job
yields as master exactly the first header and forces every consulted header
to equal it; a header disagreeing with an established master raises the
fatal `AudioProcessingError`; and `save_segment_bytes` raises a fatal error
(writing nothing to the output stream) for any artifact whose header differs
from the master. -/
theorem master_header_invariant :
    (∀ (hs : List WAVHeader) (m : WAVHeader),
        checkHeaders none hs = .ok (some m) →
          hs.head? = some m ∧ ∀ h ∈ hs, h = m) ∧
    (∀ master h : WAVHeader, h ≠ master →
        checkAndSetHeader (some master) h =
          .error "Inconsistent WAV header detected") ∧
    (∀ (mh : WAVHeader) (cache : String → Option AudioContent)
        (v : SegmentVariantTimes) (key : String) (content : AudioContent),
        v.audio_file_key = some key → cache key = some content →
        content.header ≠ mh →
        saveSegmentBytes (some mh) cache v =
          .error "Segment header mismatch during saving") := by
  refine ⟨?_, ?_, ?_⟩
  · intro hs m h
    match hs with
    | [] => simp [checkHeaders] at h
    | a :: as =>
        simp only [checkHeaders, checkAndSetHeader] at h
        obtain ⟨hr, hall⟩ := checkHeaders_some_ok a as (some m) h
        cases hr
        refine ⟨rfl, ?_⟩
        intro x hx
        rcases List.mem_cons.mp hx with hx | hx
        · exact hx
        · exact hall x hx
  · intro master h hne
    simp [checkAndSetHeader, hne]
  · intro mh cache v key content hkey hcache hmismatch
    unfold saveSegmentBytes
    rw [hkey]
    simp only [hcache]
    rw [if_pos hmismatch]

/-- Witness for C3: the invariant applied to a concrete two-artifact job
with the default header and to a concrete mismatching artifact. -/
theorem master_header_invariant_witness :
    ([WAVHeader.getDefault, WAVHeader.getDefault].head? =
        some WAVHeader.getDefault ∧
      ∀ h ∈ [WAVHeader.getDefault, WAVHeader.getDefault],
        h = WAVHeader.getDefault) ∧
    saveSegmentBytes (some WAVHeader.getDefault)
        (fun k => if k = "m" then
          some { header := { sample_rate := 44100, bit_depth := 16, channels := 1 },
                 pcm_bytes := [0, 0] }
          else none)
        { audio_file_key := some "m", start_time_sec := -1, end_time_sec := -1 } =
      .error "Segment header mismatch during saving" :=
  ⟨master_header_invariant.1 [WAVHeader.getDefault, WAVHeader.getDefault]
      WAVHeader.getDefault rfl,
    master_header_invariant.2.2 WAVHeader.getDefault _ _ "m"
      { header := { sample_rate := 44100, bit_depth := 16, channels := 1 },
        pcm_bytes := [0, 0] }
      rfl (by decide) (by decide)⟩

/-- C9: for a variant with valid times, when the clipped and frame-aligned
byte window is empty (`end_byte ≤ start_byte`), `save_segment_bytes` raises
no error, writes nothing to the output stream, and returns `(0, 0)`. -/
theorem empty_window_writes_nothing (mh : WAVHeader)
    (cache : String → Option AudioContent) (key : String)
    (content : AudioContent) (v : SegmentVariantTimes)
    (hkey : v.audio_file_key = some key) (hcache : cache key = some content)
    (hhdr : content.header = mh)
    (hvalid : 0 ≤ v.start_time_sec ∧ v.start_time_sec ≤ v.end_time_sec)
    (hempty : (segmentWindow mh content v).2 ≤ (segmentWindow mh content v).1) :
    saveSegmentBytes (some mh) cache v = .ok (0, []) := by
  unfold saveSegmentBytes
  rw [hkey]
  simp only [hcache]
  rw [if_neg (by simp [hhdr]), if_pos hvalid, if_pos hempty]

/-- Witness for C9: a variant whose one-second window starts past the end
of a four-byte artifact, so the clipped window is empty. -/
theorem empty_window_writes_nothing_witness :
    saveSegmentBytes (some WAVHeader.getDefault)
        (fun k => if k = "k" then
          some { header := WAVHeader.getDefault, pcm_bytes := [7, 7, 7, 7] }
          else none)
        { audio_file_key := some "k", start_time_sec := 1, end_time_sec := 1 } =
      .ok (0, []) :=
  empty_window_writes_nothing WAVHeader.getDefault _ "k"
    { header := WAVHeader.getDefault, pcm_bytes := [7, 7, 7, 7] }
    { audio_file_key := some "k", start_time_sec := 1, end_time_sec := 1 }
    rfl (by decide) rfl (by norm_num)
    (by
      unfold segmentWindow bytesForDuration pyRound bytesPerFrame
      norm_num [WAVHeader.getDefault, Int.fdiv])

end Langrepeater
